import Mathlib

/-!
Verification of the go-pet-project event-driven e-commerce backend.

Each definition is a shallow embedding of one Go function or SQL query of
the repository; the theorems settle the specification claims against them.
Database tables are lists of row records, transactions are explicit state
passing, JSON payloads are a small inductive value type, and fallible Go
code returns `Except`/`Option`.
-/

/-- A minimal JSON value model for outbox payloads and broker messages
(objects are association lists, as produced by `json.Marshal` of Go maps
and structs; numbers are the int64 values the events carry). -/
inductive JsonVal where
  | num (n : Int)
  | str (s : String)
  | obj (fields : List (String × JsonVal))
  | arr (elems : List JsonVal)

namespace OrderSvc

/-- A row of the `orders` table (order service). The `status` column is
VARCHAR; the repository passes it as a plain string. -/
structure OrderRow where
  id : Int
  userID : Int
  status : String
deriving Repr, DecidableEq

/-- A row of the `order_items` table (order service). -/
structure OrderItemRow where
  id : Int
  orderID : Int
  productID : Int
  name : String
  price : Int
  quantity : Int
deriving Repr, DecidableEq

/-- A row inserted into the order service's `outbox` table by
`SaveOutboxEvent`; columns not set by the caller keep their Go zero
values (empty strings). -/
structure SavedOutboxEvent where
  aggregateType : String
  aggregateID : String
  eventType : String
  payload : JsonVal
  topic : String

/-- The `PaymentFailedEvent` payload consumed by `orderService.CancelOrder`
(the `failed_at` timestamp plays no role in the handler logic). -/
structure PaymentFailedEvent where
  orderID : Int
  paymentID : Int
  amount : Int
deriving Repr, DecidableEq

/-- Errors surfaced by the order repository. -/
inductive OrderRepoError where
  | orderNotFound
deriving Repr, DecidableEq

/-- `orderRepo.ChangeOrderStatus`: executes
`UPDATE orders SET status = $1 WHERE id = $2` and returns
`ErrOrderNotFound` iff zero rows were affected. The update carries no
condition on the current status. -/
def changeOrderStatus (orders : List OrderRow) (orderID : Int) (status : String) :
    Except OrderRepoError (List OrderRow) :=
  let updated := orders.map fun o => if o.id == orderID then { o with status := status } else o
  if orders.any fun o => o.id == orderID then .ok updated else .error .orderNotFound

/-- `orderRepo.GetAllItemsOfOrder`: `SELECT ... FROM order_items WHERE order_id = $1`. -/
def getAllItemsOfOrder (items : List OrderItemRow) (orderID : Int) : List OrderItemRow :=
  items.filter fun i => i.orderID == orderID

/-- The JSON envelope `{"event": "OrderCancelled", "payload": {...}}` built
by `orderService.emitEvent` for `OrderCancelledEvent{OrderID, Items}`. -/
def orderCancelledEnvelope (orderID : Int) (items : List OrderItemRow) : JsonVal :=
  .obj [("event", .str "OrderCancelled"),
        ("payload", .obj [("order_id", .num orderID),
                          ("items", .arr (items.map fun i =>
                            .obj [("id", .num i.id), ("order_id", .num i.orderID),
                                  ("product_id", .num i.productID), ("name", .str i.name),
                                  ("price", .num i.price), ("quantity", .num i.quantity)]))])]

/-- The order service's local database: `orders`, `order_items` and its
`outbox` table, all touched in one transaction by the handlers. -/
structure OrderState where
  orders : List OrderRow
  orderItems : List OrderItemRow
  outbox : List SavedOutboxEvent

/-- `orderService.CancelOrder`: in one transaction, set the order's status
to `cancelled` via `ChangeOrderStatus` (returning an error only when the
order id matches no row), read the order's items, append an
`OrderCancelled` envelope to the outbox on `payment_events`
(`emitEvent` sets only `Topic` and `Payload`), and commit. -/
def cancelOrder (st : OrderState) (event : PaymentFailedEvent) :
    Except OrderRepoError OrderState :=
  match changeOrderStatus st.orders event.orderID "cancelled" with
  | .error e => .error e
  | .ok orders1 =>
    let items := getAllItemsOfOrder st.orderItems event.orderID
    let row : SavedOutboxEvent :=
      { aggregateType := "", aggregateID := "", eventType := "",
        payload := orderCancelledEnvelope event.orderID items,
        topic := "payment_events" }
    .ok { st with orders := orders1, outbox := st.outbox ++ [row] }

/-- Concrete state for the failing input: a single order `id = 1` owned by
user 999 whose status is already `paid`, with one order item. -/
def paidOrderState : OrderState :=
  { orders := [{ id := 1, userID := 999, status := "paid" }],
    orderItems := [{ id := 1, orderID := 1, productID := 1,
                     name := "Kuronami No Yaiba", price := 5350, quantity := 1 }],
    outbox := [] }

/-- The `PaymentFailed` payload delivered for that order. -/
def paymentFailedForOrder1 : PaymentFailedEvent :=
  { orderID := 1, paymentID := 999, amount := 999 }

/-- The same database with the order still in status `new` (the state in
which the compensation path first delivers `PaymentFailed`). -/
def newOrderState : OrderState :=
  { orders := [{ id := 1, userID := 999, status := "new" }],
    orderItems := [{ id := 1, orderID := 1, productID := 1,
                     name := "Kuronami No Yaiba", price := 5350, quantity := 1 }],
    outbox := [] }

end OrderSvc

namespace Outbox

/-- A row of the shared `outbox` table (`create_outbox_table.sql`):
`published_at` is nullable, `attempts INT NOT NULL DEFAULT 0`,
`created_at` defaults to the insertion time. Payload bytes are opaque
for the selection logic. -/
structure OutboxRow where
  id : Int
  aggregateType : String
  aggregateID : String
  eventType : String
  payload : String
  publishedAt : Option Int
  attempts : Int
  lastError : Option String
  createdAt : Int
  topic : String
deriving Repr, DecidableEq

/-- The `MAX_ATTEMPTS` bound hard-coded in the selection query
(`attempts < 10`). -/
def maxAttempts : Int := 10

/-- `NewOutboxProcessor` sets `batchSize: 50`. -/
def outboxBatchSize : Nat := 50

/-- `NewOutboxProcessor` sets `interval: 500 * time.Millisecond`. -/
def outboxIntervalMs : Nat := 500

/-- Selection predicate of `GetUnpublishedEvents`:
`published_at IS NULL AND attempts < 10`. -/
def unpublishedPred (r : OutboxRow) : Bool :=
  r.publishedAt.isNone && decide (r.attempts < maxAttempts)

/-- Insert a row into a list kept ascending by `created_at` (stable). -/
def insertByCreated (r : OutboxRow) : List OutboxRow → List OutboxRow
  | [] => [r]
  | x :: xs =>
    if r.createdAt ≤ x.createdAt then r :: x :: xs else x :: insertByCreated r xs

/-- `ORDER BY created_at ASC` (insertion sort; SQL leaves ties unspecified,
any ascending order is a faithful model). -/
def sortByCreated : List OutboxRow → List OutboxRow
  | [] => []
  | x :: xs => insertByCreated x (sortByCreated xs)

/-- `outboxRepo.GetUnpublishedEvents`:
`SELECT ... WHERE published_at IS NULL AND attempts < 10
ORDER BY created_at ASC LIMIT $1 FOR UPDATE SKIP LOCKED`. -/
def getUnpublishedEvents (rows : List OutboxRow) (batchSize : Nat) : List OutboxRow :=
  (sortByCreated (rows.filter unpublishedPred)).take batchSize

/-- The bookkeeping operations the relay and producers perform on the
outbox table. `saveEvent` is the `INSERT` of `SaveOutboxEvent`
(`attempts` takes its column default 0, `published_at` NULL; the BIGSERIAL
primary key rejects a duplicate id, leaving the table unchanged). -/
inductive RelayOp where
  | saveEvent (row : OutboxRow)
  | markPublished (id : Int) (now : Int)
  | markFailed (id : Int) (errMsg : String)
  | markUnpublished (id : Int)

/-- Apply one bookkeeping operation, mirroring the three `UPDATE`
statements of the outbox repository: `MarkEventPublished` sets
`published_at = NOW(), last_error = NULL`; `MarkEventFailed` sets
`published_at = NULL, last_error = $1, attempts = attempts + 1`;
`MarkEventUnpublished` sets `published_at = NULL, last_error = NULL`. -/
def applyOp (rows : List OutboxRow) : RelayOp → List OutboxRow
  | .saveEvent r =>
    if rows.any fun x => x.id == r.id then rows
    else rows ++ [{ r with publishedAt := none, attempts := 0 }]
  | .markPublished id now =>
    rows.map fun x =>
      if x.id == id then { x with publishedAt := some now, lastError := none } else x
  | .markFailed id errMsg =>
    rows.map fun x =>
      if x.id == id then
        { x with publishedAt := none, lastError := some errMsg, attempts := x.attempts + 1 }
      else x
  | .markUnpublished id =>
    rows.map fun x =>
      if x.id == id then { x with publishedAt := none, lastError := none } else x

/-- A sequence of bookkeeping operations applied in order. -/
def applyOps (rows : List OutboxRow) (ops : List RelayOp) : List OutboxRow :=
  ops.foldl applyOp rows

/-- The id `i` is dead-lettered in `rows`: a row with that id exists and
every row carrying it has exhausted the attempt budget. -/
def DeadLettered (rows : List OutboxRow) (i : Int) : Prop :=
  (∃ x ∈ rows, x.id = i) ∧ ∀ x ∈ rows, x.id = i → maxAttempts ≤ x.attempts

/-- A freshly inserted outbox row (attempt count at its column default). -/
def liveRow : OutboxRow :=
  { id := 1, aggregateType := "Order", aggregateID := "1", eventType := "OrderCreated",
    payload := "p", publishedAt := none, attempts := 0, lastError := none,
    createdAt := 0, topic := "order_events" }

/-- An outbox row whose attempts have reached `MAX_ATTEMPTS`. -/
def deadRow : OutboxRow :=
  { id := 1, aggregateType := "Order", aggregateID := "1", eventType := "OrderCreated",
    payload := "p", publishedAt := none, attempts := 10, lastError := some "err",
    createdAt := 0, topic := "order_events" }

end Outbox

namespace Dedup

/-- The retry loop bound in `ProcessWithDeduplication`: `for i := 0; i < 3`. -/
def dedupMaxAttempts : Nat := 3

/-- The spacing between attempts: `time.Sleep(500 * time.Millisecond)`
(taken between attempts, `if i < 2`). -/
def dedupRetryDelayMs : Nat := 500

/-- Observable outcome of one `ProcessWithDeduplication` call: whether it
returned without error, the committed contents of `processed_events`, and
how many times the side-effect action ran. -/
structure DedupOutcome where
  ok : Bool
  processed : List Int
  actionRuns : Nat
deriving Repr, DecidableEq

/-- The retry loop: index of the first successful invocation among the
three permitted attempts (`action i` is the outcome of the `(i+1)`-th run
of the side effect). -/
def firstSuccessWithin3 (action : Nat → Bool) : Option Nat :=
  if action 0 then some 0
  else if action 1 then some 1
  else if action 2 then some 2
  else none

/-- `ProcessWithDeduplication`: open a transaction; `INSERT INTO
processed_events (event_id) VALUES ($1)`; on a unique-constraint
violation (code 23505) return nil without running the action (the
deferred rollback discards the empty transaction); otherwise run the
action up to 3 times, breaking at the first success; if no attempt
succeeds, return an error before committing, so the deferred rollback
removes the dedup row; on success commit the insert. -/
def processWithDeduplication (processed : List Int) (eventID : Int)
    (action : Nat → Bool) : DedupOutcome :=
  if eventID ∈ processed then
    { ok := true, processed := processed, actionRuns := 0 }
  else
    match firstSuccessWithin3 action with
    | some i => { ok := true, processed := processed ++ [eventID], actionRuns := i + 1 }
    | none => { ok := false, processed := processed, actionRuns := 3 }

end Dedup

namespace Payment

/-- A row of the `payments` table written by `paymentRepo.Create`. -/
structure PaymentRow where
  id : Int
  orderID : Int
  userID : Int
  status : String
  amount : Int
  transactionID : String
deriving Repr, DecidableEq

/-- A row of the payment service's outbox: `paymentService.emitEvent` sets
only `Topic` and `Payload` (the other columns keep Go zero values). -/
structure PaymentOutboxRow where
  topic : String
  eventType : String
  payload : JsonVal

/-- The payment service's local database (payments + outbox, written in
one transaction by `ProcessPayment`). -/
structure PaymentState where
  payments : List PaymentRow
  outbox : List PaymentOutboxRow

/-- The `InventoryReservedEvent` consumed by `ProcessPayment` (the
`reserved_at` timestamp plays no role in the logic). -/
structure InventoryReservedEvent where
  orderID : Int
  userID : Int
  amount : Int
deriving Repr, DecidableEq

/-- `json.Marshal` of `generalDomain.PaymentFailedEvent{OrderID, Amount,
FailedAt}` — the `PaymentID` field is left at its zero value. -/
def paymentFailedPayloadJson (orderID amount now : Int) : JsonVal :=
  .obj [("order_id", .num orderID), ("payment_id", .num 0),
        ("amount", .num amount), ("failed_at", .num now)]

/-- `json.Marshal` of `generalDomain.PaymentSucceededEvent{OrderID, Amount,
PaidAt}` — the `PaymentID` field is left at its zero value. -/
def paymentSucceededPayloadJson (orderID amount now : Int) : JsonVal :=
  .obj [("order_id", .num orderID), ("payment_id", .num 0),
        ("amount", .num amount), ("paid_at", .num now)]

/-- The transactional tail of `ProcessPayment` (after the existence
check): decide the outcome with the §4.5 mock (`event.OrderID%2 == 0` →
`FAIL`/`PaymentFailed`, else `PAID`/`PaymentSucceeded`; `Int.tmod`
mirrors Go's truncated `%`), insert the payment row with the fresh UUID
transaction id (`nextID` is the BIGSERIAL id assigned by `RETURNING id`),
and append the event envelope to the outbox on `payment_events` — both
writes in the same transaction. -/
def paymentDecisionInsert (st : PaymentState) (e : InventoryReservedEvent)
    (freshTxnID : String) (nextID : Int) (now : Int) : PaymentState :=
  let even := Int.tmod e.orderID 2 == 0
  let status := if even then "FAIL" else "PAID"
  let eventType := if even then "PaymentFailed" else "PaymentSucceeded"
  let payload :=
    if even then paymentFailedPayloadJson e.orderID e.amount now
    else paymentSucceededPayloadJson e.orderID e.amount now
  { payments := st.payments ++
      [{ id := nextID, orderID := e.orderID, userID := e.userID, status := status,
         amount := e.amount, transactionID := freshTxnID }],
    outbox := st.outbox ++
      [{ topic := "payment_events", eventType := "",
         payload := .obj [("event", .str eventType), ("payload", payload)] }] }

/-- `paymentService.ProcessPayment`: `GetOrderByID` (a pool query, outside
the transaction) short-circuits with nil when a payment row for the order
already exists; otherwise the transactional tail runs. -/
def processPayment (st : PaymentState) (e : InventoryReservedEvent)
    (freshTxnID : String) (nextID : Int) (now : Int) : PaymentState :=
  match st.payments.find? fun p => p.orderID == e.orderID with
  | some _ => st
  | none => paymentDecisionInsert st e freshTxnID nextID now

/-- The predicate of the partial unique index
`CREATE UNIQUE INDEX idx_payments_order_id_unique ON payments(order_id)
WHERE status = 'SUCCEEDED'` — a row participates in the uniqueness
constraint iff its status is exactly `SUCCEEDED`. -/
def paymentsUniqueIndexCovers (status : String) : Bool :=
  status == "SUCCEEDED"

/-- The constraint the partial unique index enforces: no two rows that the
index covers share an `order_id`. -/
def PaymentsIndexAdmits (payments : List PaymentRow) : Prop :=
  payments.Pairwise fun p q =>
    paymentsUniqueIndexCovers p.status = true →
      paymentsUniqueIndexCovers q.status = true → p.orderID ≠ q.orderID

end Payment

namespace Product

/-- A row of the `products` table (the columns the stock and read paths
touch; `deleted_at` is nullable). -/
structure ProductRow where
  id : Int
  price : Int
  stock : Int
  deletedAt : Option Int
deriving Repr, DecidableEq

/-- Errors surfaced by the product repository: `ErrProductNotFound`,
`ErrInsufficientStock`, and the raw `pgx.ErrNoRows` that
`DecreaseStock`'s price query returns unwrapped. -/
inductive ProductRepoError where
  | productNotFound
  | insufficientStock
  | priceQueryNoRows
deriving Repr, DecidableEq

/-- The `WHERE` clause of the conditional update in
`productRepo.DecreaseStock`:
`id = $1 AND stock_quantity >= $2 AND deleted_at IS NULL`. -/
def decreaseStockCond (id qty : Int) (q : ProductRow) : Bool :=
  q.id == id && decide (qty ≤ q.stock) && q.deletedAt.isNone

/-- `productRepo.DecreaseStock`: first `SELECT price FROM products WHERE
id = $1` (the scan error is returned when no row exists — this query does
not filter on `deleted_at`); then the conditional update
`UPDATE products SET stock_quantity = stock_quantity - $2 WHERE id = $1
AND stock_quantity >= $2 AND deleted_at IS NULL`. Zero affected rows
yield `ErrInsufficientStock`; otherwise the price is returned together
with the updated table. -/
def decreaseStock (products : List ProductRow) (id qty : Int) :
    Except ProductRepoError (Int × List ProductRow) :=
  match products.find? fun p => p.id == id with
  | none => .error .priceQueryNoRows
  | some p =>
    if products.countP (decreaseStockCond id qty) == 0 then
      .error .insufficientStock
    else
      .ok (p.price, products.map fun q =>
        if decreaseStockCond id qty q then { q with stock := q.stock - qty } else q)

/-- `productRepo.GetByID`: `SELECT ... WHERE id = $1 AND deleted_at IS
NULL`, `ErrProductNotFound` when no row matches. -/
def repoGetByID (products : List ProductRow) (id : Int) :
    Except ProductRepoError ProductRow :=
  match products.find? fun p => p.id == id && p.deletedAt.isNone with
  | some p => .ok p
  | none => .error .productNotFound

/-- `productRepo.DeleteByID`: `UPDATE products SET deleted_at = NOW()
WHERE id = $1 AND deleted_at IS NULL`; zero affected rows yield
`ErrProductNotFound`. -/
def deleteByID (products : List ProductRow) (id now : Int) :
    Except ProductRepoError (List ProductRow) :=
  if products.any fun p => p.id == id && p.deletedAt.isNone then
    .ok (products.map fun p =>
      if p.id == id && p.deletedAt.isNone then { p with deletedAt := some now } else p)
  else .error .productNotFound

/-- `productService.DecreaseStock` (the gRPC stock-mutation path, not the
saga's `ReserveProduct`): it opens a transaction with `s.pool.Begin`,
runs the repository's conditional update inside it, and returns
`"success"` — with no `tx.Commit` and no rollback on any path. The value
is the returned result paired with the persistent table: the open
transaction is discarded when its connection is reclaimed, so the
pending update never reaches the persistent state. -/
def serviceDecreaseStock (db : List ProductRow) (id qty : Int) :
    Except ProductRepoError String × List ProductRow :=
  let txView := db
  match decreaseStock txView id qty with
  | .error e => (.error e, db)
  | .ok (_price, _pending) => (.ok "success", db)

/-- A Redis entry of the catalog cache: key, stored bytes (modeled as a
valid serialized product `some p` or malformed bytes `none`), and the
TTL passed to `Set`. -/
structure CacheEntry where
  key : String
  val : Option ProductRow
  ttlMinutes : Nat
deriving Repr, DecidableEq

/-- `redisClient.Get`: the stored value under a key, if present. -/
def cacheGet (entries : List CacheEntry) (k : String) : Option (Option ProductRow) :=
  (entries.find? fun e => e.key == k).map fun e => e.val

/-- `redisClient.Del`. -/
def cacheDel (entries : List CacheEntry) (k : String) : List CacheEntry :=
  entries.filter fun e => !(e.key == k)

/-- `redisClient.Set` with a TTL (overwrites the key). -/
def cacheSet (entries : List CacheEntry) (k : String) (v : Option ProductRow)
    (ttl : Nat) : List CacheEntry :=
  cacheDel entries k ++ [{ key := k, val := v, ttlMinutes := ttl }]

/-- `NewCachedProductService` sets `cacheTTL: time.Minute * 10`. -/
def cachedServiceTTLMinutes : Nat := 10

/-- `json.Unmarshal` of the cached bytes into a `domain.Product`
(succeeds exactly when the bytes are a valid serialization). -/
def jsonUnmarshalProduct (bytes : Option ProductRow) : Option ProductRow := bytes

/-- `json.Marshal` of a `domain.Product` — it cannot fail for this plain
struct, so it always produces valid bytes. -/
def jsonMarshalProduct (p : ProductRow) : Option (Option ProductRow) := some (some p)

/-- The zero-valued `var product domain.Product` that
`cachedProductService.FindByID` returns when `json.Unmarshal` reports an
error (no field was populated at that point). -/
def zeroValuedProduct : ProductRow := { id := 0, price := 0, stock := 0, deletedAt := none }

/-- The key `fmt.Sprintf("product:%d", id)`. -/
def productKey (id : Int) : String := "product:" ++ toString id

/-- Observable outcome of one `cachedProductService.FindByID` call. -/
structure CachedFindOutcome where
  result : Except ProductRepoError ProductRow
  cache : List CacheEntry
  repoTouched : Bool
deriving Repr

/-- The fall-through tail of `cachedProductService.FindByID`: read
through the inner service (`productRepo.GetByID`), then
`if data, err := json.Marshal(product); err != nil { Set(key, data, ttl) }`
— the `Set` runs only when `Marshal` FAILS (when it does, `data` is nil). -/
def cachedFindTail (cache : List CacheEntry) (products : List ProductRow)
    (id : Int) : CachedFindOutcome :=
  match repoGetByID products id with
  | .error e => { result := .error e, cache := cache, repoTouched := true }
  | .ok p =>
    match jsonMarshalProduct p with
    | none =>
      { result := .ok p,
        cache := cacheSet cache (productKey id) none cachedServiceTTLMinutes,
        repoTouched := true }
    | some _data => { result := .ok p, cache := cache, repoTouched := true }

/-- `cachedProductService.FindByID`: on a cache hit (`err == nil` from
`Get`) it runs `if err := json.Unmarshal([]byte(val), &product); err != nil
{ return &product, nil }` — the cached value is returned only when
`Unmarshal` FAILS (yielding the zero-valued product); a valid cached
value falls through to the repository read. A cache miss also falls
through. -/
def cachedFindByID (cache : List CacheEntry) (products : List ProductRow)
    (id : Int) : CachedFindOutcome :=
  match cacheGet cache (productKey id) with
  | some bytes =>
    match jsonUnmarshalProduct bytes with
    | none => { result := .ok zeroValuedProduct, cache := cache, repoTouched := false }
    | some _ => cachedFindTail cache products id
  | none => cachedFindTail cache products id

/-- `cachedProductService.Delete`: inner `Delete`, then `Del key` on
success. -/
def cachedDelete (cache : List CacheEntry) (products : List ProductRow)
    (id now : Int) : Except ProductRepoError (List ProductRow) × List CacheEntry :=
  match deleteByID products id now with
  | .error e => (.error e, cache)
  | .ok products2 => (.ok products2, cacheDel cache (productKey id))

/-- `cachedProductService.DecreaseStock`: inner
`productService.DecreaseStock`, then `Del key` on success. -/
def cachedDecreaseStock (cache : List CacheEntry) (db : List ProductRow)
    (id qty : Int) :
    (Except ProductRepoError String × List ProductRow) × List CacheEntry :=
  match serviceDecreaseStock db id qty with
  | (.error e, db2) => ((.error e, db2), cache)
  | (.ok s, db2) => ((.ok s, db2), cacheDel cache (productKey id))

/-- The seeded catalog product of the scenario tests:
`id=1, price=5350, stock=3`, not soft-deleted. -/
def sampleProduct : ProductRow := { id := 1, price := 5350, stock := 3, deletedAt := none }

end Product

namespace Relay

/-- Go map assignment `payloadMap["event_id"] = event.Id` on the decoded
top-level JSON object (map semantics: any previous binding of the key is
replaced; field order is not observable after `json.Marshal`). -/
def setField (fields : List (String × JsonVal)) (k : String) (v : JsonVal) :
    List (String × JsonVal) :=
  (fields.filter fun f => !(f.1 == k)) ++ [(k, v)]

/-- Field lookup in a JSON object (`none` on non-objects and missing keys). -/
def getField (j : JsonVal) (k : String) : Option JsonVal :=
  match j with
  | .obj fields => (fields.find? fun f => f.1 == k).map fun f => f.2
  | _ => none

/-- The per-event transform of `OutboxProcessor.processBatch`:
`json.Unmarshal(event.Payload, &payloadMap)` (failing — the row is marked
failed — when the stored payload is not a JSON object), then
`payloadMap["event_id"] = event.Id`; the resulting object is the broker
message handed to `ProduceMessage`. -/
def relayBrokerMessage (storedPayload : JsonVal) (rowID : Int) : Option JsonVal :=
  match storedPayload with
  | .obj fields => some (.obj (setField fields "event_id" (.num rowID)))
  | _ => none

/-- The envelope `orderService.CreateOrder` stores in its outbox:
`{"event": "OrderCreated", "payload": {order_id, event_id, user_id,
items}}` — the producer itself writes an `event_id` equal to the ORDER id
into the inner payload object. -/
def orderCreatedStoredEnvelope (orderID userID : Int)
    (items : List (Int × Int)) : JsonVal :=
  .obj [("event", .str "OrderCreated"),
        ("payload", .obj [("order_id", .num orderID), ("event_id", .num orderID),
                          ("user_id", .num userID),
                          ("items", .arr (items.map fun it =>
                            .obj [("product_id", .num it.1),
                                  ("quantity", .num it.2)]))])]

end Relay

/-- C1: the claim says delivering `PaymentFailed` for an order in status
`paid` fails with a non-retriable error and leaves the status `paid`.
Evaluating `CancelOrder` at that failing input shows the code instead
returns without error, performs the forbidden transition
`paid → cancelled` (the repository's `UPDATE orders SET status = $1
WHERE id = $2` carries no condition on the current status) and emits an
`OrderCancelled` outbox row. -/
theorem C1_cancelOrder_on_paid_order_succeeds_and_cancels :
    ∃ st' : OrderSvc.OrderState,
      OrderSvc.cancelOrder OrderSvc.paidOrderState OrderSvc.paymentFailedForOrder1 =
        .ok st' ∧
      st'.orders.map OrderSvc.OrderRow.status = ["cancelled"] ∧
      st'.outbox.length = 1 :=
  ⟨_, rfl, rfl, rfl⟩

/-- C2: the claim says a second delivery of the same `PaymentFailed`
payload to an already-cancelled order returns without error and changes
no state, writing no additional `OrderCancelled` outbox row. Evaluating
the redelivery shows the second call does return without error and
leaves the status `cancelled`, but it appends a second `OrderCancelled`
outbox row (the unconditional status update succeeds again and the
handler unconditionally emits). -/
theorem C2_cancelOrder_redelivery_appends_second_outbox_row :
    ∃ st1 st2 : OrderSvc.OrderState,
      OrderSvc.cancelOrder OrderSvc.newOrderState OrderSvc.paymentFailedForOrder1 =
        .ok st1 ∧
      OrderSvc.cancelOrder st1 OrderSvc.paymentFailedForOrder1 = .ok st2 ∧
      st2.orders = st1.orders ∧
      st1.orders.map OrderSvc.OrderRow.status = ["cancelled"] ∧
      st1.outbox.length = 1 ∧
      st2.outbox.length = 2 :=
  ⟨_, _, rfl, rfl, rfl, rfl, rfl, rfl⟩

namespace Outbox

theorem mem_insertByCreated {a r : OutboxRow} {l : List OutboxRow} :
    a ∈ insertByCreated r l ↔ a = r ∨ a ∈ l := by
  induction l with
  | nil => simp [insertByCreated]
  | cons x xs ih =>
    by_cases h : r.createdAt ≤ x.createdAt
    · simp [insertByCreated, h]
    · simp only [insertByCreated, if_neg h, List.mem_cons, ih]
      tauto

theorem length_insertByCreated (r : OutboxRow) (l : List OutboxRow) :
    (insertByCreated r l).length = l.length + 1 := by
  induction l with
  | nil => rfl
  | cons x xs ih =>
    by_cases h : r.createdAt ≤ x.createdAt
    · simp [insertByCreated, h]
    · simp [insertByCreated, h, ih]

theorem pairwise_insertByCreated {r : OutboxRow} {l : List OutboxRow}
    (hl : l.Pairwise fun a b => a.createdAt ≤ b.createdAt) :
    (insertByCreated r l).Pairwise fun a b => a.createdAt ≤ b.createdAt := by
  induction l with
  | nil => simp [insertByCreated]
  | cons x xs ih =>
    rcases List.pairwise_cons.mp hl with ⟨hx, hxs⟩
    by_cases h : r.createdAt ≤ x.createdAt
    · rw [insertByCreated, if_pos h]
      refine List.pairwise_cons.mpr ⟨?_, hl⟩
      intro b hb
      rcases List.mem_cons.mp hb with rfl | hb
      · exact h
      · exact le_trans h (hx b hb)
    · rw [insertByCreated, if_neg h]
      refine List.pairwise_cons.mpr ⟨?_, ih hxs⟩
      intro b hb
      rcases mem_insertByCreated.mp hb with rfl | hb
      · exact le_of_not_le h
      · exact hx b hb

theorem mem_sortByCreated {a : OutboxRow} {l : List OutboxRow} :
    a ∈ sortByCreated l ↔ a ∈ l := by
  induction l with
  | nil => simp [sortByCreated]
  | cons x xs ih => simp [sortByCreated, mem_insertByCreated, ih]

theorem length_sortByCreated (l : List OutboxRow) :
    (sortByCreated l).length = l.length := by
  induction l with
  | nil => rfl
  | cons x xs ih => simp [sortByCreated, length_insertByCreated, ih]

theorem pairwise_sortByCreated (l : List OutboxRow) :
    (sortByCreated l).Pairwise fun a b => a.createdAt ≤ b.createdAt := by
  induction l with
  | nil => simp [sortByCreated]
  | cons x xs ih => exact pairwise_insertByCreated ih

theorem mem_getUnpublishedEvents {r : OutboxRow} {rows : List OutboxRow} {b : Nat}
    (h : r ∈ getUnpublishedEvents rows b) :
    r ∈ rows ∧ r.publishedAt = none ∧ r.attempts < maxAttempts := by
  have h1 : r ∈ sortByCreated (rows.filter unpublishedPred) := List.mem_of_mem_take h
  have h2 : r ∈ rows.filter unpublishedPred := mem_sortByCreated.mp h1
  have h3 := List.mem_filter.mp h2
  have h4 := h3.2
  rw [unpublishedPred, Bool.and_eq_true] at h4
  exact ⟨h3.1, Option.isNone_iff_eq_none.mp h4.1, of_decide_eq_true h4.2⟩

theorem deadLettered_map {rows : List OutboxRow} {i : Int} {f : OutboxRow → OutboxRow}
    (hid : ∀ x, (f x).id = x.id) (hatt : ∀ x, x.attempts ≤ (f x).attempts)
    (h : DeadLettered rows i) : DeadLettered (rows.map f) i := by
  obtain ⟨⟨w, hw, hwid⟩, hall⟩ := h
  refine ⟨⟨f w, List.mem_map_of_mem f hw, by rw [hid]; exact hwid⟩, ?_⟩
  intro x hx hxid
  obtain ⟨y, hy, rfl⟩ := List.mem_map.mp hx
  have hyid : y.id = i := by rw [← hid y]; exact hxid
  exact le_trans (hall y hy hyid) (hatt y)

theorem deadLettered_applyOp {rows : List OutboxRow} {i : Int}
    (h : DeadLettered rows i) (op : RelayOp) : DeadLettered (applyOp rows op) i := by
  cases op with
  | saveEvent r =>
    by_cases hany : rows.any fun x => x.id == r.id
    · simpa [applyOp, hany] using h
    · obtain ⟨⟨w, hw, hwid⟩, hall⟩ := h
      have hrid : r.id ≠ i := by
        intro hri
        exact hany (List.any_eq_true.mpr ⟨w, hw, by simp [hwid, hri]⟩)
      rw [applyOp, if_neg hany]
      refine ⟨⟨w, List.mem_append_left _ hw, hwid⟩, ?_⟩
      intro x hx hxid
      rcases List.mem_append.mp hx with hx | hx
      · exact hall x hx hxid
      · rcases List.mem_singleton.mp hx with rfl
        exact absurd hxid hrid
  | markPublished id now =>
    refine deadLettered_map ?_ ?_ h <;> intro x <;> by_cases hx : x.id == id <;>
      simp [hx]
  | markFailed id errMsg =>
    refine deadLettered_map ?_ ?_ h <;> intro x <;> by_cases hx : x.id == id <;>
      simp [hx]
  | markUnpublished id =>
    refine deadLettered_map ?_ ?_ h <;> intro x <;> by_cases hx : x.id == id <;>
      simp [hx]

theorem deadLettered_applyOps {rows : List OutboxRow} {i : Int}
    (h : DeadLettered rows i) (ops : List RelayOp) :
    DeadLettered (applyOps rows ops) i := by
  induction ops generalizing rows with
  | nil => exact h
  | cons op ops ih => exact ih (deadLettered_applyOp h op)

end Outbox

/-- C3: `GetUnpublishedEvents` returns only rows with a null published
timestamp and fewer than `MAX_ATTEMPTS = 10` attempts, ordered ascending
by created timestamp, at most the requested batch; every qualifying row
is returned when the qualifying set fits the batch; the relay runs with
batch 50 every 500 ms; and once an id is dead-lettered (attempts ≥ 10)
no later sequence of relay bookkeeping operations ever makes it selected
again. -/
theorem C3_getUnpublishedEvents_selection_correct :
    Outbox.outboxBatchSize = 50 ∧ Outbox.outboxIntervalMs = 500 ∧
    (∀ (rows : List Outbox.OutboxRow) (b : Nat),
       ∀ r ∈ Outbox.getUnpublishedEvents rows b,
         r ∈ rows ∧ r.publishedAt = none ∧ r.attempts < Outbox.maxAttempts) ∧
    (∀ (rows : List Outbox.OutboxRow) (b : Nat),
       (Outbox.getUnpublishedEvents rows b).length ≤ b) ∧
    (∀ (rows : List Outbox.OutboxRow) (b : Nat),
       (Outbox.getUnpublishedEvents rows b).Pairwise
         fun a c => a.createdAt ≤ c.createdAt) ∧
    (∀ (rows : List Outbox.OutboxRow) (b : Nat),
       (rows.filter Outbox.unpublishedPred).length ≤ b →
         ∀ r ∈ rows, Outbox.unpublishedPred r → r ∈ Outbox.getUnpublishedEvents rows b) ∧
    (∀ (rows : List Outbox.OutboxRow) (ops : List Outbox.RelayOp) (i : Int),
       Outbox.DeadLettered rows i →
         ∀ (b : Nat), ∀ r ∈ Outbox.getUnpublishedEvents (Outbox.applyOps rows ops) b,
           r.id ≠ i) := by
  refine ⟨rfl, rfl, ?_, ?_, ?_, ?_, ?_⟩
  · intro rows b r hr
    exact Outbox.mem_getUnpublishedEvents hr
  · intro rows b
    exact List.length_take_le _ _
  · intro rows b
    exact (Outbox.pairwise_sortByCreated _).sublist (List.take_sublist _ _)
  · intro rows b hlen r hr hp
    have hmemf : r ∈ rows.filter Outbox.unpublishedPred := List.mem_filter.mpr ⟨hr, hp⟩
    have hmems : r ∈ Outbox.sortByCreated (rows.filter Outbox.unpublishedPred) :=
      Outbox.mem_sortByCreated.mpr hmemf
    have hfull : (Outbox.sortByCreated (rows.filter Outbox.unpublishedPred)).length ≤ b := by
      rw [Outbox.length_sortByCreated]; exact hlen
    rw [Outbox.getUnpublishedEvents, List.take_of_length_le hfull]
    exact hmems
  · intro rows ops i hdl b r hr hri
    have hdl2 := Outbox.deadLettered_applyOps hdl ops
    have hm := Outbox.mem_getUnpublishedEvents hr
    have := hdl2.2 r hm.1 hri
    exact absurd hm.2.2 (not_lt.mpr this)

/-- Witness for C3: instantiating the completeness conjunct at one fresh
row and the relay's default batch. -/
theorem C3_getUnpublishedEvents_selection_correct_witness :
    Outbox.liveRow ∈ Outbox.getUnpublishedEvents [Outbox.liveRow] 50 :=
  C3_getUnpublishedEvents_selection_correct.2.2.2.2.2.1 [Outbox.liveRow] 50
    (by decide) Outbox.liveRow (by decide) (by decide)

/-- C4: `ProcessWithDeduplication` runs the side effect at most once per
successful processing: an event id already present in `processed_events`
returns without error, without running the action and without state
change; a fresh id runs the action up to 3 times (500 ms spacing) —
if attempt `i` is the first success the dedup row is committed and the
action ran `i + 1` times; if all 3 attempts fail the dedup row is rolled
back and an error is surfaced; the action never runs more than 3 times. -/
theorem C4_processWithDeduplication_correct :
    Dedup.dedupMaxAttempts = 3 ∧ Dedup.dedupRetryDelayMs = 500 ∧
    (∀ (processed : List Int) (eventID : Int) (action : Nat → Bool),
       eventID ∈ processed →
         Dedup.processWithDeduplication processed eventID action =
           { ok := true, processed := processed, actionRuns := 0 }) ∧
    (∀ (processed : List Int) (eventID : Int) (action : Nat → Bool),
       eventID ∉ processed → action 0 = false → action 1 = false → action 2 = false →
         Dedup.processWithDeduplication processed eventID action =
           { ok := false, processed := processed, actionRuns := 3 }) ∧
    (∀ (processed : List Int) (eventID : Int) (action : Nat → Bool) (i : Nat),
       eventID ∉ processed → i < 3 → (∀ j, j < i → action j = false) → action i = true →
         Dedup.processWithDeduplication processed eventID action =
           { ok := true, processed := processed ++ [eventID], actionRuns := i + 1 }) ∧
    (∀ (processed : List Int) (eventID : Int) (action : Nat → Bool),
       (Dedup.processWithDeduplication processed eventID action).actionRuns ≤ 3) := by
  refine ⟨rfl, rfl, ?_, ?_, ?_, ?_⟩
  · intro processed eventID action h
    simp [Dedup.processWithDeduplication, h]
  · intro processed eventID action h h0 h1 h2
    simp [Dedup.processWithDeduplication, h, Dedup.firstSuccessWithin3, h0, h1, h2]
  · intro processed eventID action i h hi hprev hsucc
    interval_cases i
    · simp [Dedup.processWithDeduplication, h, Dedup.firstSuccessWithin3, hsucc]
    · have h0 := hprev 0 (by norm_num)
      simp [Dedup.processWithDeduplication, h, Dedup.firstSuccessWithin3, h0, hsucc]
    · have h0 := hprev 0 (by norm_num)
      have h1 := hprev 1 (by norm_num)
      simp [Dedup.processWithDeduplication, h, Dedup.firstSuccessWithin3, h0, h1, hsucc]
  · intro processed eventID action
    by_cases h : eventID ∈ processed
    · simp [Dedup.processWithDeduplication, h]
    · rw [Dedup.processWithDeduplication, if_neg h]
      cases hf : Dedup.firstSuccessWithin3 action with
      | none => exact le_refl 3
      | some i =>
        have hle : i ≤ 2 := by
          unfold Dedup.firstSuccessWithin3 at hf
          split_ifs at hf <;> simp_all <;> omega
        simpa using Nat.succ_le_succ hle

/-- Witness for C4: a redelivered event id (already recorded) returns
without error, without running the action and without state change. -/
theorem C4_processWithDeduplication_correct_witness :
    Dedup.processWithDeduplication [7] 7 (fun _ => true) =
      { ok := true, processed := [7], actionRuns := 0 } :=
  C4_processWithDeduplication_correct.2.2.1 [7] 7 (fun _ => true) (by decide)

/-- C5: `ProcessPayment` short-circuits without any write when a payment
row already exists for the order id; otherwise it writes, in one
transaction, exactly one payment row carrying the fresh UUID transaction
id and one outbox envelope on `payment_events`: status `FAIL` with
`PaymentFailed` when the order id is even, status `PAID` with
`PaymentSucceeded` when it is odd. -/
theorem C5_processPayment_correct :
    (∀ (st : Payment.PaymentState) (e : Payment.InventoryReservedEvent)
       (t : String) (nid now : Int),
       (∃ p ∈ st.payments, p.orderID = e.orderID) →
         Payment.processPayment st e t nid now = st) ∧
    (∀ (st : Payment.PaymentState) (e : Payment.InventoryReservedEvent)
       (t : String) (nid now : Int),
       (∀ p ∈ st.payments, p.orderID ≠ e.orderID) → Int.tmod e.orderID 2 = 0 →
         Payment.processPayment st e t nid now =
           { payments := st.payments ++
               [{ id := nid, orderID := e.orderID, userID := e.userID,
                  status := "FAIL", amount := e.amount, transactionID := t }],
             outbox := st.outbox ++
               [{ topic := "payment_events", eventType := "",
                  payload := .obj [("event", .str "PaymentFailed"),
                    ("payload",
                     Payment.paymentFailedPayloadJson e.orderID e.amount now)] }] }) ∧
    (∀ (st : Payment.PaymentState) (e : Payment.InventoryReservedEvent)
       (t : String) (nid now : Int),
       (∀ p ∈ st.payments, p.orderID ≠ e.orderID) → Int.tmod e.orderID 2 ≠ 0 →
         Payment.processPayment st e t nid now =
           { payments := st.payments ++
               [{ id := nid, orderID := e.orderID, userID := e.userID,
                  status := "PAID", amount := e.amount, transactionID := t }],
             outbox := st.outbox ++
               [{ topic := "payment_events", eventType := "",
                  payload := .obj [("event", .str "PaymentSucceeded"),
                    ("payload",
                     Payment.paymentSucceededPayloadJson e.orderID e.amount now)] }] }) := by
  refine ⟨?_, ?_, ?_⟩
  · intro st e t nid now h
    obtain ⟨p, hp, hpo⟩ := h
    cases hf : st.payments.find? fun q => q.orderID == e.orderID with
    | some q => simp [Payment.processPayment, hf]
    | none =>
      exfalso
      have := List.find?_eq_none.mp hf p hp
      simp [hpo] at this
  · intro st e t nid now h heven
    have hf : (st.payments.find? fun q => q.orderID == e.orderID) = none :=
      List.find?_eq_none.mpr fun p hp => by simp [h p hp]
    have hb : (Int.tmod e.orderID 2 == 0) = true := by simp [heven]
    simp only [Payment.processPayment, hf, Payment.paymentDecisionInsert, hb]
    simp
  · intro st e t nid now h hodd
    have hf : (st.payments.find? fun q => q.orderID == e.orderID) = none :=
      List.find?_eq_none.mpr fun p hp => by simp [h p hp]
    have hb : (Int.tmod e.orderID 2 == 0) = false := by simpa using hodd
    simp only [Payment.processPayment, hf, Payment.paymentDecisionInsert, hb]
    simp

/-- Witness for C5: a fresh odd order id (7) persists a `PAID` row with
the fresh transaction id and emits `PaymentSucceeded`. -/
theorem C5_processPayment_correct_witness :
    Payment.processPayment ⟨[], []⟩ ⟨7, 999, 5350⟩ "uuid-1" 1 0 =
      { payments := [{ id := 1, orderID := 7, userID := 999, status := "PAID",
                       amount := 5350, transactionID := "uuid-1" }],
        outbox := [{ topic := "payment_events", eventType := "",
                     payload := .obj [("event", .str "PaymentSucceeded"),
                       ("payload", Payment.paymentSucceededPayloadJson 7 5350 0)] }] } :=
  C5_processPayment_correct.2.2 ⟨[], []⟩ ⟨7, 999, 5350⟩ "uuid-1" 1 0
    (by simp) (by decide)

/-- C6: the claim says the partial unique index enforces at-most-one
succeeded payment per order because its predicate covers the success
status the service writes. Evaluating the code: the index predicate is
`status = 'SUCCEEDED'` while the service writes `PAID` (success) and
`FAIL`; the predicate covers neither, and a racy double delivery for odd
order 7 (both existence checks — pool reads outside the transaction —
run before either insert) yields two `PAID` rows for the same order that
the index admits. -/
theorem C6_partial_unique_index_never_covers_written_statuses :
    Payment.paymentsUniqueIndexCovers "PAID" = false ∧
    Payment.paymentsUniqueIndexCovers "FAIL" = false ∧
    ((Payment.paymentDecisionInsert ⟨[], []⟩ ⟨7, 999, 5350⟩ "uuid-a" 1 0).payments.map
      fun p => (p.orderID, p.status)) = [(7, "PAID")] ∧
    ((Payment.paymentDecisionInsert
        (Payment.paymentDecisionInsert ⟨[], []⟩ ⟨7, 999, 5350⟩ "uuid-a" 1 0)
        ⟨7, 999, 5350⟩ "uuid-b" 2 0).payments.map fun p => (p.orderID, p.status)) =
      [(7, "PAID"), (7, "PAID")] ∧
    Payment.PaymentsIndexAdmits
      (Payment.paymentDecisionInsert
        (Payment.paymentDecisionInsert ⟨[], []⟩ ⟨7, 999, 5350⟩ "uuid-a" 1 0)
        ⟨7, 999, 5350⟩ "uuid-b" 2 0).payments := by
  refine ⟨rfl, rfl, rfl, rfl, ?_⟩
  unfold Payment.PaymentsIndexAdmits
  decide

namespace Product

theorem decreaseStock_ok_elim {products : List ProductRow} {id qty pr : Int}
    {upd : List ProductRow}
    (h : decreaseStock products id qty = .ok (pr, upd)) :
    (∃ q ∈ products, decreaseStockCond id qty q = true) ∧
    upd = products.map fun q =>
      if decreaseStockCond id qty q then { q with stock := q.stock - qty } else q := by
  unfold decreaseStock at h
  split at h
  · exact absurd h (by simp)
  · split at h
    · exact absurd h (by simp)
    · rename_i hcount
      obtain ⟨h1, h2⟩ := by simpa using h
      refine ⟨?_, h2.symm⟩
      by_contra hall
      push_neg at hall
      have : products.countP (decreaseStockCond id qty) = 0 :=
        List.countP_eq_zero.mpr fun q hq => by
          simpa using hall q hq
      simp [this] at hcount

end Product

/-- C7: the repository's `DecreaseStock` is a conditional update: it
succeeds only when some row with the requested id has stock at least the
requested quantity and is not soft-deleted; when no row satisfies the
condition zero rows are affected and `ErrInsufficientStock` is returned
(the table untouched); on success exactly the qualifying rows are
decremented; and stock non-negativity is preserved. -/
theorem C7_decreaseStock_conditional_update :
    (∀ (products : List Product.ProductRow) (id qty pr : Int)
       (upd : List Product.ProductRow),
       Product.decreaseStock products id qty = .ok (pr, upd) →
         ∃ q ∈ products, q.id = id ∧ qty ≤ q.stock ∧ q.deletedAt = none) ∧
    (∀ (products : List Product.ProductRow) (id qty : Int),
       (∃ p ∈ products, p.id = id) →
       (∀ q ∈ products, Product.decreaseStockCond id qty q = false) →
         Product.decreaseStock products id qty = .error .insufficientStock) ∧
    (∀ (products : List Product.ProductRow) (id qty pr : Int)
       (upd : List Product.ProductRow),
       Product.decreaseStock products id qty = .ok (pr, upd) →
         upd = products.map fun q =>
           if Product.decreaseStockCond id qty q then { q with stock := q.stock - qty }
           else q) ∧
    (∀ (products : List Product.ProductRow) (id qty pr : Int)
       (upd : List Product.ProductRow),
       (∀ q ∈ products, 0 ≤ q.stock) →
       Product.decreaseStock products id qty = .ok (pr, upd) →
         ∀ q ∈ upd, 0 ≤ q.stock) := by
  refine ⟨?_, ?_, ?_, ?_⟩
  · intro products id qty pr upd h
    obtain ⟨⟨q, hq, hcond⟩, -⟩ := Product.decreaseStock_ok_elim h
    refine ⟨q, hq, ?_⟩
    unfold Product.decreaseStockCond at hcond
    simp only [Bool.and_eq_true, beq_iff_eq, decide_eq_true_eq,
      Option.isNone_iff_eq_none] at hcond
    exact ⟨hcond.1.1, hcond.1.2, hcond.2⟩
  · intro products id qty hex hall
    obtain ⟨p, hp, hpid⟩ := hex
    have hf : (products.find? fun q => q.id == id).isSome :=
      List.find?_isSome.mpr ⟨p, hp, by simp [hpid]⟩
    have hc : products.countP (Product.decreaseStockCond id qty) = 0 :=
      List.countP_eq_zero.mpr fun q hq => by simp [hall q hq]
    unfold Product.decreaseStock
    cases hfe : products.find? fun q => q.id == id with
    | none => rw [hfe] at hf; simp at hf
    | some q => simp [hc]
  · intro products id qty pr upd h
    exact (Product.decreaseStock_ok_elim h).2
  · intro products id qty pr upd hnn h
    rw [(Product.decreaseStock_ok_elim h).2]
    intro q hq
    obtain ⟨y, hy, rfl⟩ := List.mem_map.mp hq
    by_cases hc : Product.decreaseStockCond id qty y
    · have : qty ≤ y.stock := by
        unfold Product.decreaseStockCond at hc
        simp only [Bool.and_eq_true, decide_eq_true_eq] at hc
        exact hc.1.2
      simp only [hc, if_pos]
      omega
    · simp only [hc, if_neg, Bool.false_eq_true, not_false_eq_true]
      exact hnn y hy

/-- Witness for C7: decrementing the seeded product (stock 3) by 1
succeeds, and stock stays non-negative. -/
theorem C7_decreaseStock_conditional_update_witness :
    ∀ q ∈ [{ id := 1, price := 5350, stock := 2,
             deletedAt := none : Product.ProductRow }], 0 ≤ q.stock :=
  C7_decreaseStock_conditional_update.2.2.2 [Product.sampleProduct] 1 1 5350
    [{ id := 1, price := 5350, stock := 2, deletedAt := none }]
    (by decide) (by rfl)

/-- C10: the gRPC stock-mutation path `productService.DecreaseStock`
opens a transaction it never commits (nor rolls back): whenever the
repository's conditional update succeeds inside the transaction the
method returns `"success"`, yet the persistent table is always left
exactly as it was — demonstrated concretely on the seeded product, whose
in-transaction stock drops from 3 to 2 while the persistent stock stays
3. -/
theorem C10_serviceDecreaseStock_success_without_commit :
    (∀ (db : List Product.ProductRow) (id qty : Int),
       (Product.serviceDecreaseStock db id qty).2 = db) ∧
    (∀ (db : List Product.ProductRow) (id qty : Int),
       (Product.serviceDecreaseStock db id qty).1 = .ok "success" ↔
         (Product.decreaseStock db id qty).isOk = true) ∧
    Product.decreaseStock [Product.sampleProduct] 1 1 =
      .ok (5350, [{ id := 1, price := 5350, stock := 2, deletedAt := none }]) ∧
    Product.serviceDecreaseStock [Product.sampleProduct] 1 1 =
      (.ok "success", [Product.sampleProduct]) := by
  refine ⟨?_, ?_, rfl, rfl⟩
  · intro db id qty
    unfold Product.serviceDecreaseStock
    cases h : Product.decreaseStock db id qty with
    | error e => simp [h]
    | ok v => simp [h]
  · intro db id qty
    unfold Product.serviceDecreaseStock
    cases h : Product.decreaseStock db id qty with
    | error e => simp [h, Except.isOk, Except.toBool]
    | ok v => simp [h, Except.isOk, Except.toBool]

/-- C9: the claim says a cache miss followed by a successful repository
read stores the product under `product:<id>` with a 10-minute TTL, and a
cache hit returns the cached product without touching the repository.
Evaluating the decorator: both error checks are inverted — after a miss
the product is returned but the key is never stored (the `Set` is
guarded by `err != nil` on a `Marshal` that cannot fail), and a valid
cache hit still reads the repository (the early return is guarded by
`err != nil` on a successful `Unmarshal`, and fires only on corrupt
bytes, returning the zero-valued product). The invalidation halves hold:
`Delete` and `DecreaseStock` do remove the key, and the configured TTL
is 10 minutes. -/
theorem C9_cachedFindByID_inverted_error_checks :
    Product.cachedServiceTTLMinutes = 10 ∧
    (Product.cachedFindByID [] [Product.sampleProduct] 1).result =
      .ok Product.sampleProduct ∧
    (Product.cachedFindByID [] [Product.sampleProduct] 1).cache = [] ∧
    (Product.cachedFindByID
      [{ key := "product:1", val := some Product.sampleProduct, ttlMinutes := 10 }]
      [Product.sampleProduct] 1).repoTouched = true ∧
    (Product.cachedFindByID
      [{ key := "product:1", val := none, ttlMinutes := 10 }]
      [Product.sampleProduct] 1).result = .ok Product.zeroValuedProduct ∧
    (Product.cachedFindByID
      [{ key := "product:1", val := none, ttlMinutes := 10 }]
      [Product.sampleProduct] 1).repoTouched = false ∧
    (Product.cachedDelete
      [{ key := "product:1", val := some Product.sampleProduct, ttlMinutes := 10 }]
      [Product.sampleProduct] 1 99).2 = [] ∧
    (Product.cachedDecreaseStock
      [{ key := "product:1", val := some Product.sampleProduct, ttlMinutes := 10 }]
      [Product.sampleProduct] 1 1).2 = [] :=
  ⟨rfl, rfl, rfl, rfl, rfl, rfl, rfl, rfl⟩

namespace Relay

theorem find?_filter_self_none (fields : List (String × JsonVal)) (k : String) :
    ((fields.filter fun f => !(f.1 == k)).find? fun f => f.1 == k) = none := by
  rw [List.find?_eq_none]
  intro x hx
  have h := (List.mem_filter.mp hx).2
  simp at h
  simp [h]

theorem find?_filter_other (fields : List (String × JsonVal)) (k k2 : String)
    (h : ¬ k2 = k) :
    ((fields.filter fun f => !(f.1 == k)).find? fun f => f.1 == k2) =
      fields.find? fun f => f.1 == k2 := by
  induction fields with
  | nil => rfl
  | cons x xs ih =>
    by_cases hx : x.1 == k
    · have hx1 : x.1 = k := by simpa using hx
      have hx2 : (x.1 == k2) = false := by
        simp [hx1]
        intro hk
        exact h hk.symm
      simp only [List.filter_cons, hx, Bool.not_true, Bool.false_eq_true, if_neg,
        not_false_eq_true]
      rw [List.find?_cons_of_neg _ (by simp [hx2]), ih]
    · by_cases hx2 : x.1 == k2
      · simp only [List.filter_cons, hx, Bool.not_false, if_pos]
        rw [List.find?_cons_of_pos _ (by simpa using hx2),
          List.find?_cons_of_pos _ (by simpa using hx2)]
      · simp only [List.filter_cons, hx, Bool.not_false, if_pos]
        rw [List.find?_cons_of_neg _ (by simpa using hx2),
          List.find?_cons_of_neg _ (by simpa using hx2), ih]

theorem getField_setField_self (fields : List (String × JsonVal)) (k : String)
    (v : JsonVal) :
    getField (.obj (setField fields k v)) k = some v := by
  simp only [getField, setField]
  rw [List.find?_append, find?_filter_self_none]
  simp

theorem getField_setField_other (fields : List (String × JsonVal)) (k k2 : String)
    (v : JsonVal) (h : ¬ k2 = k) :
    getField (.obj (setField fields k v)) k2 = getField (.obj fields) k2 := by
  simp only [getField, setField]
  rw [List.find?_append, find?_filter_other fields k k2 h]
  cases hf : fields.find? fun f => f.1 == k2 with
  | none =>
    have hne : ((k, v).1 == k2) = false := by
      simp only [beq_eq_false_iff_ne, ne_eq]
      exact fun hk => h hk.symm
    simp [Option.or, hne]
  | some f => simp [hf, Option.or]

end Relay

/-- C8 counterexample: for the `OrderCreated` envelope of order 7 stored
by `CreateOrder` and published as outbox row 42, the relay's broker
message carries `event_id = 42` at the TOP level of the envelope, while
the object under the `payload` key still carries the producer-written
`event_id = 7` (the order id), not the outbox row id — refuting the
claim that the payload object carries an `event_id` equal to the outbox
row id. -/
theorem C8_counterexample_event_id_not_in_payload :
    ∃ msg payloadObj : JsonVal,
      Relay.relayBrokerMessage (Relay.orderCreatedStoredEnvelope 7 999 [(1, 1)]) 42 =
        some msg ∧
      Relay.getField msg "event_id" = some (.num 42) ∧
      Relay.getField msg "payload" = some payloadObj ∧
      Relay.getField payloadObj "event_id" = some (.num 7) ∧
      Relay.getField payloadObj "event_id" ≠ some (.num 42) :=
  ⟨_, _, rfl, rfl, rfl, rfl, by simp [Relay.getField]⟩

/-- C8 amended: for every outbox event whose stored payload decodes to a
JSON object, the relay injects an `event_id` field equal to the outbox
row id at the TOP level of the broker message — as a sibling of the
envelope's `event` and `payload` keys, not inside the `payload` object —
and the objects under `payload` and `event` pass through unchanged. -/
theorem C8_amended_event_id_injected_at_top_level :
    ∀ (fields : List (String × JsonVal)) (rowID : Int),
      ∃ msg : JsonVal,
        Relay.relayBrokerMessage (.obj fields) rowID = some msg ∧
        Relay.getField msg "event_id" = some (.num rowID) ∧
        Relay.getField msg "payload" = Relay.getField (.obj fields) "payload" ∧
        Relay.getField msg "event" = Relay.getField (.obj fields) "event" := by
  intro fields rowID
  refine ⟨.obj (Relay.setField fields "event_id" (.num rowID)), rfl, ?_, ?_, ?_⟩
  · exact Relay.getField_setField_self fields "event_id" (.num rowID)
  · exact Relay.getField_setField_other fields "event_id" "payload" _ (by decide)
  · exact Relay.getField_setField_other fields "event_id" "event" _ (by decide)
